import Mathlib

/-!
Shallow embedding of `src/motor_control_drive/myrt.c`: a small kernel driver
that (a) generates a software PWM waveform on an output line from a 100-step
hrtimer callback, (b) timestamps rising edges on an input line and publishes
the edge-to-edge period in microseconds, and (c) exposes the period for
reading and the duty cycle for writing through a character device.

Times are modelled as `Int` nanoseconds (`ktime_t` is a signed 64-bit
nanosecond count), `period_us` as `Nat` (a `u64`, with the explicit
`% 2 ^ 64` conversion where the C code stores an `s64` into it), and C `int`
values as `Int`.  C's `%` on `int` (truncating remainder) is `Int.tmod`.
Payloads and read buffers are `List Char` (one entry per byte).
-/

/-- Shared driver state: the static globals of `myrt.c` that the claims are
about.  `last_edge` and `period_us` are written by the IRQ handler,
`duty_cycle` by `myrt_write`, `counter` and `pwm_state` belong to the PWM
timer callback (`counter` is the `static int` local; `pwm_state` mirrors the
level last driven onto the output line). -/
structure DrvState where
  last_edge  : Int
  period_us  : Nat
  duty_cycle : Int
  counter    : Int
  pwm_state  : Bool
deriving DecidableEq

/-- State right after `myrt_init`: `last_edge = ktime_set(0,0)`,
`period_us = 0`, `duty_cycle = 50`, the callback's `static int counter = 0`,
output line driven low (`GPIOD_OUT_LOW`). -/
def initState : DrvState := ⟨0, 0, 50, 0, false⟩

/-- The `PWM_PERIOD_NS` macro: 1 ms carrier period in nanoseconds. -/
def PWM_PERIOD_NS : Int := 1000000

/-- Kernel helper `ktime_us_delta(later, earlier)`: the difference in
nanoseconds divided by 1000, with C (truncating) division. -/
def ktime_us_delta (later earlier : Int) : Int := (later - earlier).tdiv 1000

/-- Conversion of an `s64` value to the `u64` it is stored as (two's
complement reinterpretation). -/
def u64_of_s64 (x : Int) : Nat := (x % ((2 : Int) ^ 64)).toNat

/-- The rising-edge IRQ handler `gpio_irq_handler`, as written: the live
condition `!ktime_compare(last_edge, ktime_set(0,0))` is true exactly when
`last_edge == 0`, so the body publishes `period_us` when `last_edge` still
holds the startup sentinel and skips publishing otherwise.  `now` is the
`ktime_get()` result for this invocation. -/
def gpio_irq_handler (now : Int) (s : DrvState) : DrvState :=
  let s1 :=
    if s.last_edge = 0 then
      { s with period_us := u64_of_s64 (ktime_us_delta now s.last_edge) }
    else s
  { s1 with last_edge := now }

/-- Run the IRQ handler over a list of edge instants, recording for each
edge the value published into `period_us` (`some p` when the handler's
publish branch executes, `none` when it does not).  The branch condition is
the same `last_edge = 0` test as in `gpio_irq_handler`. -/
def run_edges : DrvState → List Int → DrvState × List (Option Nat)
  | s, [] => (s, [])
  | s, t :: ts =>
    let pub : Option Nat :=
      if s.last_edge = 0 then some (u64_of_s64 (ktime_us_delta t s.last_edge)) else none
    let r := run_edges (gpio_irq_handler t s) ts
    (r.1, pub :: r.2)

/-- One invocation of `pwm_timer_callback` acting on the step counter:
`counter = (counter + 1) % 100`, then the output line is driven high iff
`counter < duty_cycle`.  Returns the new counter and the level driven. -/
def pwm_tick (duty counter : Int) : Int × Bool :=
  let c := (counter + 1).tmod 100
  (c, decide (c < duty))

/-- The sequence of output levels driven by `n` consecutive invocations of
`pwm_timer_callback` with a fixed duty cycle, starting from step counter
value `counter`. -/
def pwm_run (duty : Int) : Int → Nat → List Bool
  | _, 0 => []
  | counter, n + 1 =>
    let c := (counter + 1).tmod 100
    decide (c < duty) :: pwm_run duty c n

/-- Kernel helper `hrtimer_forward(timer, now, interval)` restricted to the
expiry-time computation: if `now` is before the current expiry nothing
changes; otherwise the expiry is advanced by the least positive multiple of
`interval` that moves it past `now` (first by `delta / interval` intervals,
then by one more if that still does not pass `now`).
`pwm_timer_callback` calls this through `hrtimer_forward_now`. -/
def hrtimer_forward (expires now interval : Int) : Int :=
  let delta := now - expires
  if delta < 0 then expires
  else if interval ≤ delta then
    let orun := delta.tdiv interval
    let expires1 := expires + interval * orun
    if now < expires1 then expires1 else expires1 + interval
  else expires + interval

/-- The rescheduling step of `pwm_timer_callback`:
`interval = ktime_set(0, PWM_PERIOD_NS/100)` followed by
`hrtimer_forward_now(timer, interval)`, where `now` is the clock instant at
which the callback body executes. -/
def pwm_callback_reschedule (expires now : Int) : Int :=
  hrtimer_forward expires now (PWM_PERIOD_NS / 100)

/-- The message built by `myrt_read`: `snprintf(msg, 32, "%llu\n", period_us)`.
The decimal text of a `u64` plus the newline is at most 21 bytes, so the
32-byte buffer never truncates. -/
def read_msg (p : Nat) : List Char := (Nat.repr p).data ++ ['\n']

/-- The file operation `myrt_read`, with `copy_to_user` modelled as always
succeeding.  Returns (return value, bytes placed in the caller's buffer,
new `*offset`, state).  Exactly as in the C code, the caller-supplied
length `len` is never consulted, the full message is copied whenever
`*offset < msg_len`, and no global state is touched. -/
def myrt_read (s : DrvState) (len : Nat) (offset : Int) :
    Int × List Char × Int × DrvState :=
  let msg := read_msg s.period_us
  let msg_len : Int := (msg.length : Int)
  if msg_len ≤ offset then (0, [], offset, s)
  else (msg_len, msg, offset + msg_len, s)

/-- Kernel `_parse_integer` at base 10: consume the maximal leading run of
decimal digits, returning the exact accumulated value and the number of
characters consumed.  (The C version accumulates mod 2^64 with an overflow
flag; the flag is set exactly when the exact value here is ≥ 2^64, which is
how the callers below test it.) -/
def parse_int_digits : List Char → Nat → Nat → Nat × Nat
  | [], acc, cnt => (acc, cnt)
  | c :: rest, acc, cnt =>
    if c.isDigit then parse_int_digits rest (acc * 10 + (c.toNat - 48)) (cnt + 1)
    else (acc, cnt)

/-- Kernel `_kstrtoull` at base 10 on a NUL-terminated string (here: the
list holds the bytes before the terminating NUL): digits, overflow check,
at-least-one-digit check, one optional trailing newline, then end of
string. -/
def kstrtoull_body (s : List Char) : Option Nat :=
  let r := parse_int_digits s 0 0
  if 2 ^ 64 ≤ r.1 then none
  else if r.2 = 0 then none
  else
    let rest := s.drop r.2
    let rest1 := if rest.head? = some '\n' then rest.drop 1 else rest
    if rest1 = [] then some r.1 else none

/-- Kernel `kstrtoull` at base 10: an optional leading `+`, then
`_kstrtoull`. -/
def kstrtoull (s : List Char) : Option Nat :=
  kstrtoull_body (if s.head? = some '+' then s.drop 1 else s)

/-- Kernel `kstrtoll` at base 10: a leading `-` negates the `_kstrtoull`
result (range-checked against `s64`), otherwise `kstrtoull` is used and the
result must fit a non-negative `s64`. -/
def kstrtoll (s : List Char) : Option Int :=
  match s with
  | '-' :: rest =>
    match kstrtoull_body rest with
    | none => none
    | some tmp => if 2 ^ 63 < tmp then none else some (-(tmp : Int))
  | _ =>
    match kstrtoull s with
    | none => none
    | some tmp => if 2 ^ 63 ≤ tmp then none else some (tmp : Int)

/-- Kernel `kstrtoint` at base 10: `kstrtoll` plus the `int` range check.
On any failure the output variable is not written. -/
def kstrtoint (s : List Char) : Option Int :=
  match kstrtoll s with
  | none => none
  | some v => if v < -(2 ^ 31) ∨ 2 ^ 31 ≤ v then none else some v

/-- The errno value `EINVAL`. -/
def EINVAL : Int := 22

/-- The file operation `myrt_write`, with `copy_from_user` modelled as
always succeeding.  Payloads of 16 bytes or more are rejected with
`-EINVAL` before anything else happens; otherwise the payload is
NUL-terminated (so parsing sees the bytes before any embedded NUL), the
`kstrtoint` result is ignored on failure (`duty_cycle` keeps its value),
and the stored value is clamped below by 0 and above by 100.  Returns the
new state and the syscall return value. -/
def myrt_write (s : DrvState) (payload : List Char) : DrvState × Int :=
  if 16 ≤ payload.length then (s, -EINVAL)
  else
    let msg := payload.takeWhile (fun c => c != '\x00')
    let duty0 :=
      match kstrtoint msg with
      | some v => v
      | none => s.duty_cycle
    let duty1 := if duty0 < 0 then 0 else duty0
    let duty2 := if 100 < duty1 then 100 else duty1
    ({ s with duty_cycle := duty2 }, (payload.length : Int))

/-! ## Helper lemmas -/

lemma pwm_run_low (c : Int) (hc : 0 ≤ c) (n : Nat) :
    pwm_run 0 c n = List.replicate n false := by
  induction n generalizing c with
  | zero => rfl
  | succ n ih =>
    have h1 : (0 : Int) ≤ (c + 1).tmod 100 := Int.tmod_nonneg 100 (by omega)
    simp only [pwm_run, List.replicate_succ, ih _ h1, List.cons.injEq, and_true,
      decide_eq_false_iff_not]
    omega

lemma pwm_run_high (c : Int) (hc : 0 ≤ c) (n : Nat) :
    pwm_run 100 c n = List.replicate n true := by
  induction n generalizing c with
  | zero => rfl
  | succ n ih =>
    have h1 : (0 : Int) ≤ (c + 1).tmod 100 := Int.tmod_nonneg 100 (by omega)
    have h2 : (c + 1).tmod 100 < 100 := Int.tmod_lt_of_pos (c + 1) (by omega)
    simp only [pwm_run, List.replicate_succ, ih _ h1, List.cons.injEq, and_true,
      decide_eq_true_eq]
    omega

lemma hrtimer_forward_ontime (expires now interval : Int)
    (h0 : expires ≤ now) (h1 : now < expires + interval) :
    hrtimer_forward expires now interval = expires + interval := by
  have hA : ¬ (now - expires < 0) := by omega
  have hB : ¬ (interval ≤ now - expires) := by omega
  simp only [hrtimer_forward, if_neg hA, if_neg hB]

/-- C1 (code bug): with the startup state (`last_edge = 0`), rising edges at
1000000 ns and 3000000 ns make the handler publish a `MeasuredPeriod` of
1000 µs at the FIRST edge (the inverted sentinel test fires when
`last_edge == 0`) and publish nothing at the second edge — the claim says
the first edge publishes nothing and the second publishes 2000 µs. -/
theorem C1_first_edge_publishes :
    (run_edges initState [1000000, 3000000]).2 = [some 1000, none]
    ∧ (run_edges initState [1000000, 3000000]).2 ≠ [none, some 2000]
    ∧ (run_edges initState [1000000, 3000000]).1.period_us = 1000 := by
  decide

set_option maxRecDepth 8000 in
/-- C2: over a cycle-aligned window of 100 PWM callback invocations
(starting with the step counter at 99, so the window's counter values are
0,…,99 in order), the output is high exactly on the first `d` step indices,
hence on exactly `d` ticks and low on `100 − d`; duty 0 gives a constantly
low and duty 100 a constantly high output over any full cycle from any
reachable counter value. -/
theorem C2_pwm_duty_cycle (d : Int) (h0 : 0 ≤ d) (h1 : d ≤ 100) :
    pwm_run d 99 100 = (List.range 100).map (fun i => decide ((i : Int) < d))
    ∧ (pwm_run d 99 100).count true = d.toNat
    ∧ (pwm_run d 99 100).count false = 100 - d.toNat
    ∧ (∀ c : Int, 0 ≤ c → pwm_run 0 c 100 = List.replicate 100 false)
    ∧ (∀ c : Int, 0 ≤ c → pwm_run 100 c 100 = List.replicate 100 true) := by
  have key : pwm_run d 99 100 = (List.range 100).map (fun i => decide ((i : Int) < d))
      ∧ (pwm_run d 99 100).count true = d.toNat
      ∧ (pwm_run d 99 100).count false = 100 - d.toNat := by
    interval_cases d <;> exact (by decide)
  exact ⟨key.1, key.2.1, key.2.2,
    fun c hc => pwm_run_low c hc 100, fun c hc => pwm_run_high c hc 100⟩

set_option maxRecDepth 8000 in
/-- Witness for C2 at the spec's own scenario `d = 75`. -/
theorem C2_pwm_duty_cycle_witness :
    (0 : Int) ≤ 75 ∧ (75 : Int) ≤ 100
    ∧ (pwm_run 75 99 100 = (List.range 100).map (fun i => decide ((i : Int) < 75))
       ∧ (pwm_run 75 99 100).count true = (75 : Int).toNat
       ∧ (pwm_run 75 99 100).count false = 100 - (75 : Int).toNat
       ∧ (∀ c : Int, 0 ≤ c → pwm_run 0 c 100 = List.replicate 100 false)
       ∧ (∀ c : Int, 0 ≤ c → pwm_run 100 c 100 = List.replicate 100 true)) :=
  ⟨by decide, by decide, C2_pwm_duty_cycle 75 (by decide) (by decide)⟩

/-- C3 counterexample: a callback invocation that runs 25000 ns after its
scheduled expiry (more than two 10000 ns tick intervals late) reschedules
to 30000 ns, not to the previously scheduled fire time plus one interval
(10000 ns) — `hrtimer_forward_now` skips the missed ticks. -/
theorem C3_late_tick_counterexample :
    pwm_callback_reschedule 0 25000 = 30000
    ∧ pwm_callback_reschedule 0 25000 ≠ 0 + PWM_PERIOD_NS / 100 := by
  decide

/-- C3 amended: whenever the callback body runs at or after its scheduled
expiry but less than one tick interval (`PWM_PERIOD_NS/100` ns) late, the
next expiry is exactly the previously scheduled fire time plus one tick
interval — and in particular differs from the actual fire time plus one
interval whenever the callback ran late at all, so per-tick jitter does not
accumulate as drift. -/
theorem C3_reschedule_from_schedule (expires now : Int) (h0 : expires ≤ now)
    (h1 : now < expires + PWM_PERIOD_NS / 100) :
    pwm_callback_reschedule expires now = expires + PWM_PERIOD_NS / 100
    ∧ (expires < now →
        pwm_callback_reschedule expires now ≠ now + PWM_PERIOD_NS / 100) := by
  have hmain : pwm_callback_reschedule expires now = expires + PWM_PERIOD_NS / 100 :=
    hrtimer_forward_ontime expires now _ h0 h1
  refine ⟨hmain, fun hlt => ?_⟩
  rw [hmain]
  omega

/-- Witness for C3 amended: scheduled expiry 20000 ns, actual fire time
29500 ns. -/
theorem C3_reschedule_from_schedule_witness :
    (20000 : Int) ≤ 29500 ∧ (29500 : Int) < 20000 + PWM_PERIOD_NS / 100
    ∧ (pwm_callback_reschedule 20000 29500 = 20000 + PWM_PERIOD_NS / 100
       ∧ ((20000 : Int) < 29500 →
           pwm_callback_reschedule 20000 29500 ≠ 29500 + PWM_PERIOD_NS / 100)) :=
  ⟨by decide, by decide, C3_reschedule_from_schedule 20000 29500 (by decide) (by decide)⟩

/-- C4: a write payload of 16 bytes or more is rejected with `-EINVAL`
before any state is touched, and a payload of at most 15 bytes passes the
size check (its return value is the payload length, never the size
error). -/
theorem C4_write_size_limit (s : DrvState) (payload : List Char) :
    (16 ≤ payload.length → myrt_write s payload = (s, -EINVAL))
    ∧ (payload.length ≤ 15 →
        (myrt_write s payload).2 = (payload.length : Int)
        ∧ (myrt_write s payload).2 ≠ -EINVAL) := by
  constructor
  · intro h
    simp only [myrt_write, if_pos h]
  · intro h
    have hn : ¬ (16 ≤ payload.length) := by omega
    simp only [myrt_write, if_neg hn, EINVAL]
    refine ⟨by simp, ?_⟩
    omega

/-- Witness for C4: a 16-byte payload is rejected, a 2-byte payload passes
the size check. -/
theorem C4_write_size_limit_witness :
    myrt_write initState (List.replicate 16 'a') = (initState, -EINVAL)
    ∧ (myrt_write initState ['4', '2']).2 = 2 :=
  ⟨(C4_write_size_limit initState (List.replicate 16 'a')).1 (by decide),
   by
     have h := (C4_write_size_limit initState ['4', '2']).2 (by decide)
     rw [h.1]
     decide⟩

/-- C10 (code bug): at startup `period_us` is exactly 0 and a read at
offset 0 returns precisely the two bytes "0\n"; but after a single rising
edge at 1000000 ns — i.e. before any edge-to-edge interval has completed —
the same read returns "1000\n", because the handler's inverted sentinel
test already published a measurement at the first edge. -/
theorem C10_initial_period_read :
    initState.period_us = 0
    ∧ (myrt_read initState 32 0).2.1 = ['0', '\n']
    ∧ (myrt_read initState 32 0).1 = 2
    ∧ (myrt_read (gpio_irq_handler 1000000 initState) 32 0).2.1
        = ['1', '0', '0', '0', '\n']
    ∧ (myrt_read (gpio_irq_handler 1000000 initState) 32 0).2.1 ≠ ['0', '\n'] := by
  refine ⟨rfl, ?_, ?_, ?_, ?_⟩ <;> decide

/-- C5: when a write payload of accepted size parses (via `kstrtoint`) as
the decimal integer `v`, the call is not rejected (it returns the payload
length) and the stored `duty_cycle` is `v` clamped to `[0,100]`: values
above 100 are stored as 100 and negative values as 0. -/
theorem C5_write_clamp (s : DrvState) (payload : List Char) (v : Int)
    (hlen : payload.length < 16)
    (hp : kstrtoint (payload.takeWhile (fun c => c != '\x00')) = some v) :
    (myrt_write s payload).2 = (payload.length : Int)
    ∧ (myrt_write s payload).1
        = { s with duty_cycle := if v < 0 then 0 else if 100 < v then 100 else v }
    ∧ (100 < v → (myrt_write s payload).1.duty_cycle = 100)
    ∧ (v < 0 → (myrt_write s payload).1.duty_cycle = 0) := by
  have hn : ¬ (16 ≤ payload.length) := by omega
  have hstate : (myrt_write s payload).1
      = { s with duty_cycle := if v < 0 then 0 else if 100 < v then 100 else v } := by
    simp only [myrt_write, if_neg hn, hp]
    split_ifs <;> first | rfl | (exfalso; omega)
  refine ⟨?_, hstate, fun h => ?_, fun h => ?_⟩
  · simp only [myrt_write, if_neg hn]
  · rw [hstate]
    have hv : ¬ (v < 0) := by omega
    simp [hv, h]
  · rw [hstate]
    simp [h]

/-- Witness for C5: writing "150" stores the clamped duty cycle 100 and
returns length 3. -/
theorem C5_write_clamp_witness :
    (myrt_write initState ['1', '5', '0']).1.duty_cycle = 100
    ∧ (myrt_write initState ['1', '5', '0']).2 = 3 :=
  ⟨(C5_write_clamp initState ['1', '5', '0'] 150 (by decide) (by decide)).2.2.1
      (by decide),
   by
     have h := (C5_write_clamp initState ['1', '5', '0'] 150 (by decide) (by decide)).1
     rw [h]
     decide⟩

/-- C6: when a write payload of accepted size fails to parse, `duty_cycle`
keeps its previous value (the `kstrtoint` result is discarded and the
clamp of an in-range value is the identity) and the call still returns the
payload length — no error is surfaced. -/
theorem C6_write_parse_fail (s : DrvState) (payload : List Char)
    (hlen : payload.length < 16)
    (hp : kstrtoint (payload.takeWhile (fun c => c != '\x00')) = none)
    (hd0 : 0 ≤ s.duty_cycle) (hd1 : s.duty_cycle ≤ 100) :
    myrt_write s payload = (s, (payload.length : Int)) := by
  have hn : ¬ (16 ≤ payload.length) := by omega
  have h1 : ¬ (s.duty_cycle < 0) := by omega
  have h2 : ¬ (100 < s.duty_cycle) := by omega
  simp only [myrt_write, if_neg hn, hp, if_neg h1, if_neg h2]

/-- Witness for C6: writing "abc" leaves the startup state unchanged and
returns length 3. -/
theorem C6_write_parse_fail_witness :
    myrt_write initState ['a', 'b', 'c'] = (initState, 3) :=
  (C6_write_parse_fail initState ['a', 'b', 'c'] (by decide) (by decide)
    (by decide) (by decide)).trans (by decide)

/-- C9: a write that passes the size check modifies at most `duty_cycle`:
`period_us`, `last_edge`, the step counter and the output line state are
untouched, and the call returns the full payload length. -/
theorem C9_write_frame (s : DrvState) (payload : List Char)
    (hlen : payload.length < 16) :
    (myrt_write s payload).1.period_us = s.period_us
    ∧ (myrt_write s payload).1.last_edge = s.last_edge
    ∧ (myrt_write s payload).1.counter = s.counter
    ∧ (myrt_write s payload).1.pwm_state = s.pwm_state
    ∧ (myrt_write s payload).2 = (payload.length : Int) := by
  have hn : ¬ (16 ≤ payload.length) := by omega
  simp [myrt_write, if_neg hn]

/-- Witness for C9 with payload "77". -/
theorem C9_write_frame_witness :
    (myrt_write initState ['7', '7']).1.period_us = 0
    ∧ (myrt_write initState ['7', '7']).1.last_edge = 0
    ∧ (myrt_write initState ['7', '7']).1.counter = 0
    ∧ (myrt_write initState ['7', '7']).1.pwm_state = false
    ∧ (myrt_write initState ['7', '7']).2 = 2 := by
  have h := C9_write_frame initState ['7', '7'] (by decide)
  exact ⟨h.1.trans (by decide), h.2.1.trans (by decide), h.2.2.1.trans (by decide),
    h.2.2.2.1.trans (by decide), h.2.2.2.2.trans (by decide)⟩

